import Mathlib

/-!
Verification of the background data-aggregation and archival tasks of the
ichnaea geolocation service (`src/ichnaea/tasks.py`).

The Python module is shallowly embedded: pure computations become Lean
functions, database tables become lists of rows, ORM mutations become
functional state updates, and the external geodesic primitives
(`ichnaea.geocalc.distance`, `centroid`, `range_to_points`), the coordinate
conversions (`ichnaea.models.to_degrees` / `from_degrees`), the content hash
(`ichnaea.backup.compute_hash`) and the object store (`S3Backend`) are
treated as parameters, since their code lives outside the verified module.
Python's floor division `//` is `Int.fdiv` (they agree for every nonzero
divisor); stored coordinates are integers in centimicrodegrees.
-/

namespace Ichnaea

/-- `WIFI_MAX_DIST_KM = 5` (tasks.py line 45). -/
def WIFI_MAX_DIST_KM : ℚ := 5

/-- `CELL_MAX_DIST_KM = 150` (tasks.py line 46). -/
def CELL_MAX_DIST_KM : ℚ := 150

/-- Modelled from the spec: `CELLID_LAC` is the reserved sentinel cell id
marking the virtual LAC row (`ichnaea.models`, not part of the verified
module).  Its concrete value is irrelevant to every property below; we fix
the sentinel `-2`. -/
def CELLID_LAC : Int := -2

/-- Modelled from the spec: `ichnaea.models.to_degrees` converts stored
centimicrodegrees (degrees times ten to the seventh) to degrees. -/
def toDegrees (x : Int) : ℚ := (x : ℚ) / 10000000

/-- `min` of a list, as Python's `min(vals)`; Python raises on an empty
list, which never happens on the paths modelled here (the batch is
non-empty), so the empty case is given the junk value `0`. -/
def listMin : List Int → Int
  | [] => 0
  | x :: xs => xs.foldl min x

/-- `max` of a list, as Python's `max(vals)` (same remark as `listMin`). -/
def listMax : List Int → Int
  | [] => 0
  | x :: xs => xs.foldl max x

/-- The inner helper `extreme` of `calculate_new_position` (tasks.py lines
194-200): combine the extreme of the new values with the station's stored
bound when one exists. -/
def extreme (nw : Int) (old : Option Int) (f : Int → Int → Int) : Int :=
  match old with
  | some o => f nw o
  | none => nw

/-- A station row (`Cell` or `Wifi`).  The cell key columns
(`radio, mcc, mnc, lac, cid`) are carried for cells and unused for wifis;
`lac` is nullable in the schema.  Bounding-box columns are nullable
(`NULL` until first computed).  `range` is kept as a rational because
`calculate_new_position` stores `range_to_points(...) * 1000.0`. -/
structure Station where
  radio : Int
  mcc : Int
  mnc : Int
  lac : Option Int
  cid : Int
  lat : Int
  lon : Int
  min_lat : Option Int
  min_lon : Option Int
  max_lat : Option Int
  max_lon : Option Int
  range : ℚ
  new_measures : Int
  total_measures : Int
deriving DecidableEq

/-- The external geodesic and conversion primitives used by the tasks,
passed as parameters of the embedding (`ichnaea.geocalc` and
`ichnaea.models` are outside the verified module).  `dist` takes the two
diagonal corners in degrees and returns kilometres; `rangeToPoints` takes a
centre and a point list in degrees and returns kilometres; `centroid` maps
a list of degree points to their centre; `fromDegrees` converts degrees
back to stored centimicrodegrees. -/
structure GeoFns where
  dist : ℚ → ℚ → ℚ → ℚ → ℚ
  rangeToPoints : ℚ × ℚ → List (ℚ × ℚ) → ℚ
  centroid : List (ℚ × ℚ) → ℚ × ℚ
  fromDegrees : ℚ → Int

/-- `new_lat = sum(latitudes) // length` over the batch (tasks.py lines
178-180). -/
def newLatOf (measures : List (Int × Int)) : Int :=
  Int.fdiv (measures.map Prod.fst).sum (measures.length : Int)

/-- `new_lon = sum(longitudes) // length` over the batch (tasks.py lines
179-181). -/
def newLonOf (measures : List (Int × Int)) : Int :=
  Int.fdiv (measures.map Prod.snd).sum (measures.length : Int)

/-- The latitude list used for the extent computation: the batch latitudes,
extended with the station's own latitude exactly when the station counts as
existing — Python's `if station.lat and station.lon` is the truthiness test
`lat ≠ 0 and lon ≠ 0` (tasks.py lines 183-190). -/
def extLats (station : Station) (measures : List (Int × Int)) : List Int :=
  if station.lat ≠ 0 ∧ station.lon ≠ 0 then
    measures.map Prod.fst ++ [station.lat]
  else
    measures.map Prod.fst

/-- Longitude analogue of `extLats`. -/
def extLons (station : Station) (measures : List (Int × Int)) : List Int :=
  if station.lat ≠ 0 ∧ station.lon ≠ 0 then
    measures.map Prod.snd ++ [station.lon]
  else
    measures.map Prod.snd

/-- `min_lat = extreme(latitudes, 'min_lat', min)` (tasks.py line 202). -/
def minLatOf (station : Station) (measures : List (Int × Int)) : Int :=
  extreme (listMin (extLats station measures)) station.min_lat min

/-- `min_lon = extreme(longitudes, 'min_lon', min)` (tasks.py line 203). -/
def minLonOf (station : Station) (measures : List (Int × Int)) : Int :=
  extreme (listMin (extLons station measures)) station.min_lon min

/-- `max_lat = extreme(latitudes, 'max_lat', max)` (tasks.py line 204). -/
def maxLatOf (station : Station) (measures : List (Int × Int)) : Int :=
  extreme (listMax (extLats station measures)) station.max_lat max

/-- `max_lon = extreme(longitudes, 'max_lon', max)` (tasks.py line 205). -/
def maxLonOf (station : Station) (measures : List (Int × Int)) : Int :=
  extreme (listMax (extLons station measures)) station.max_lon max

/-- `box_dist`: great-circle distance between the opposite corners of the
bounding box of the measurements and the existing estimate (tasks.py lines
210-211). -/
def boxDistOf (g : GeoFns) (station : Station) (measures : List (Int × Int)) : ℚ :=
  g.dist (toDegrees (minLatOf station measures)) (toDegrees (minLonOf station measures))
    (toDegrees (maxLatOf station measures)) (toDegrees (maxLonOf station measures))

/-- Common tail of `calculate_new_position` (tasks.py lines 241-254): store
the new bounding box and the radio-range estimate.  The second component is
the "added to the moving set" flag, `false` on this path. -/
def finishStation (g : GeoFns) (st : Station) (min_lat min_lon max_lat max_lon : Int) :
    Station × Bool :=
  let st1 := { st with min_lat := some min_lat, min_lon := some min_lon,
                       max_lat := some max_lat, max_lon := some max_lon }
  let ctr := (toDegrees st1.lat, toDegrees st1.lon)
  let points := [(toDegrees min_lat, toDegrees min_lon),
                 (toDegrees min_lat, toDegrees max_lon),
                 (toDegrees max_lat, toDegrees min_lon),
                 (toDegrees max_lat, toDegrees max_lon)]
  ({ st1 with range := g.rangeToPoints ctr points * 1000 }, false)

/-- `calculate_new_position` (tasks.py lines 173-254).  Returns the updated
station and a flag telling whether the station was added to the caller's
moving set (in which case the station is returned unchanged, mirroring the
early `return`).  The station counts as existing exactly when Python's
truthiness test `station.lat and station.lon` holds, i.e. both coordinates
are nonzero.  Python's `//` is `Int.fdiv`; the division by
`new_total` is meaningful whenever `new_total ≠ 0`, which all call sites
guarantee. -/
def calculate_new_position (g : GeoFns) (station : Station)
    (measures : List (Int × Int)) (max_dist_km : ℚ) (backfill : Bool) :
    Station × Bool :=
  let length : Int := measures.length
  let new_lat := newLatOf measures
  let new_lon := newLonOf measures
  if station.lat ≠ 0 ∧ station.lon ≠ 0 then
    -- existing_station = True
    if boxDistOf g station measures > max_dist_km then
      (station, true)
    else
      let st :=
        if backfill then
          let new_total := station.total_measures + length
          { station with
            total_measures := new_total,
            lat := Int.fdiv (station.lat * station.total_measures + new_lat * length) new_total,
            lon := Int.fdiv (station.lon * station.total_measures + new_lon * length) new_total }
        else
          let new_total := station.total_measures
          let old_length := new_total - length
          { station with
            lat := Int.fdiv (station.lat * old_length + new_lat * length) new_total,
            lon := Int.fdiv (station.lon * old_length + new_lon * length) new_total }
      let st2 := if backfill then st else { st with new_measures := st.new_measures - length }
      finishStation g st2 (minLatOf station measures) (minLonOf station measures)
        (maxLatOf station measures) (maxLonOf station measures)
  else
    -- treated as a station without a prior estimate: position := batch mean,
    -- existing_station = False, hence no movement check
    let st := { station with lat := new_lat, lon := new_lon }
    let st2 := if backfill then st else { st with new_measures := st.new_measures - length }
    finishStation g st2 (minLatOf station measures) (minLonOf station measures)
      (maxLatOf station measures) (maxLonOf station measures)

/-- `update_enclosing_lac` (tasks.py lines 257-265): upsert of the virtual
LAC row keyed by `(radio, mcc, mnc, lac, CELLID_LAC)`.  A fresh insert gets
`new_measures = 1, total_measures = 0` and copies the cell's position and
range; on duplicate key only `new_measures` is incremented
(`on_duplicate='new_measures = new_measures + 1'`).  The `created` column is
not modelled. -/
def update_enclosing_lac (db : List Station) (cell : Station) : List Station :=
  if db.any (fun r => decide (r.radio = cell.radio) && decide (r.mcc = cell.mcc) &&
      decide (r.mnc = cell.mnc) && decide (r.lac = cell.lac) && decide (r.cid = CELLID_LAC)) then
    db.map (fun r =>
      if r.radio = cell.radio ∧ r.mcc = cell.mcc ∧ r.mnc = cell.mnc ∧
          r.lac = cell.lac ∧ r.cid = CELLID_LAC then
        { r with new_measures := r.new_measures + 1 }
      else r)
  else
    db ++ [{ radio := cell.radio, mcc := cell.mcc, mnc := cell.mnc, lac := cell.lac,
             cid := CELLID_LAC, lat := cell.lat, lon := cell.lon,
             min_lat := none, min_lon := none, max_lat := none, max_lon := none,
             range := cell.range, new_measures := 1, total_measures := 0 }]

theorem foldl_min_le_init (xs : List Int) (x : Int) : xs.foldl min x ≤ x := by
  induction xs generalizing x with
  | nil => simp
  | cons y ys ih => exact le_trans (ih (min x y)) (min_le_left _ _)

theorem le_foldl_max_init (xs : List Int) (x : Int) : x ≤ xs.foldl max x := by
  induction xs generalizing x with
  | nil => simp
  | cons y ys ih => exact le_trans (le_max_left _ _) (ih (max x y))

theorem foldl_min_le (xs : List Int) (x a : Int) (h : a = x ∨ a ∈ xs) :
    xs.foldl min x ≤ a := by
  induction xs generalizing x with
  | nil =>
    rcases h with h | h
    · simp [h]
    · simp at h
  | cons y ys ih =>
    show ys.foldl min (min x y) ≤ a
    rcases h with h | h
    · rw [h]; exact le_trans (foldl_min_le_init ys (min x y)) (min_le_left _ _)
    · rcases List.mem_cons.mp h with h | h
      · rw [h]; exact le_trans (foldl_min_le_init ys (min x y)) (min_le_right _ _)
      · exact ih (min x y) (Or.inr h)

theorem le_foldl_max (xs : List Int) (x a : Int) (h : a = x ∨ a ∈ xs) :
    a ≤ xs.foldl max x := by
  induction xs generalizing x with
  | nil =>
    rcases h with h | h
    · simp [h]
    · simp at h
  | cons y ys ih =>
    show a ≤ ys.foldl max (max x y)
    rcases h with h | h
    · rw [h]; exact le_trans (le_max_left _ _) (le_foldl_max_init ys (max x y))
    · rcases List.mem_cons.mp h with h | h
      · rw [h]; exact le_trans (le_max_right _ _) (le_foldl_max_init ys (max x y))
      · exact ih (max x y) (Or.inr h)

theorem listMin_le_of_mem {a : Int} {l : List Int} (h : a ∈ l) : listMin l ≤ a := by
  cases l with
  | nil => simp at h
  | cons x xs =>
    have := List.mem_cons.mp h
    exact foldl_min_le xs x a (by tauto)

theorem le_listMax_of_mem {a : Int} {l : List Int} (h : a ∈ l) : a ≤ listMax l := by
  cases l with
  | nil => simp at h
  | cons x xs =>
    have := List.mem_cons.mp h
    exact le_foldl_max xs x a (by tauto)

theorem extreme_min_le (nw : Int) (old : Option Int) : extreme nw old min ≤ nw := by
  cases old <;> simp [extreme]

theorem le_extreme_max (nw : Int) (old : Option Int) : nw ≤ extreme nw old max := by
  cases old <;> simp [extreme]

/-- Claim C3: for an existing station (both coordinates nonzero) whose
extended bounding box stays within the distance cap, a non-empty incremental
batch (`backfill = false`) of `n` measurements yields
`lat = (lat * (total_measures - n) + (Σ batch lats // n) * n) // total_measures`
(symmetrically for `lon`), decrements `new_measures` by exactly `n`, and
leaves `total_measures` unchanged. -/
theorem c3_incremental_update (g : GeoFns) (s : Station) (ms : List (Int × Int))
    (cap : ℚ) (hlat : s.lat ≠ 0) (hlon : s.lon ≠ 0) (_hms : ms ≠ [])
    (hcap : ¬ boxDistOf g s ms > cap)
    (_hn : (ms.length : Int) ≤ s.total_measures) :
    (calculate_new_position g s ms cap false).1.lat =
      Int.fdiv (s.lat * (s.total_measures - (ms.length : Int)) +
        newLatOf ms * (ms.length : Int)) s.total_measures ∧
    (calculate_new_position g s ms cap false).1.lon =
      Int.fdiv (s.lon * (s.total_measures - (ms.length : Int)) +
        newLonOf ms * (ms.length : Int)) s.total_measures ∧
    (calculate_new_position g s ms cap false).1.new_measures =
      s.new_measures - (ms.length : Int) ∧
    (calculate_new_position g s ms cap false).1.total_measures = s.total_measures ∧
    (calculate_new_position g s ms cap false).2 = false := by
  simp only [calculate_new_position]
  rw [if_pos ⟨hlat, hlon⟩, if_neg hcap]
  simp [finishStation]

/-- Claim C5: an existing station whose extended bounding box diagonal
exceeds the cap is added to the moving set and returned with every stored
field unchanged. -/
theorem c5_moving_station_unchanged (g : GeoFns) (s : Station) (ms : List (Int × Int))
    (cap : ℚ) (bf : Bool) (hlat : s.lat ≠ 0) (hlon : s.lon ≠ 0)
    (hmov : boxDistOf g s ms > cap) :
    calculate_new_position g s ms cap bf = (s, true) := by
  simp only [calculate_new_position]
  rw [if_pos ⟨hlat, hlon⟩, if_pos hmov]

/-- Claim C4, counterexample to the claim as stated: this station has
`lat = 0` but `lon ≠ 0`, so it is not in the claimed "no prior estimate"
case `lat == 0 ∧ lon == 0`; yet the code sets its position to the batch
mean and performs no movement check (the distance stub returns 1000 km,
far above the 150 km cap, and still the moving flag is false). -/
def c4station : Station :=
  { radio := 0, mcc := 1, mnc := 2, lac := some 3, cid := 4,
    lat := 0, lon := 50000000,
    min_lat := none, min_lon := none, max_lat := none, max_lon := none,
    range := 0, new_measures := 10, total_measures := 10 }

/-- Constant-distance evaluation stub for the external geodesic primitives:
every distance is 1000 km (above both caps).  Genuine great-circle
configurations with such distances exist (stations a continent apart), so
every concrete scenario below is realizable with the real `geocalc`. -/
def gFar : GeoFns :=
  { dist := fun _ _ _ _ => 1000, rangeToPoints := fun _ _ => 0,
    centroid := fun _ => (0, 0), fromDegrees := fun _ => 0 }

/-- Constant-distance evaluation stub: every distance is 0 km (below both
caps), as for measurements tightly clustered around the station. -/
def gNear : GeoFns :=
  { dist := fun _ _ _ _ => 0, rangeToPoints := fun _ _ => 0,
    centroid := fun _ => (0, 0), fromDegrees := fun _ => 0 }

/-- Claim C4 is false as stated: a station with `lat = 0 ∧ lon ≠ 0` is not
in the claimed absent case, yet `calculate_new_position` overwrites its
position with the batch mean and skips the movement check. -/
theorem c4_counterexample :
    ¬(c4station.lat = 0 ∧ c4station.lon = 0) ∧
    (calculate_new_position gFar c4station [(100, 200)] CELL_MAX_DIST_KM false).1.lat = 100 ∧
    (calculate_new_position gFar c4station [(100, 200)] CELL_MAX_DIST_KM false).1.lon = 200 ∧
    (calculate_new_position gFar c4station [(100, 200)] CELL_MAX_DIST_KM false).2 = false := by
  decide

/-- Claim C4, amended: the aggregator treats a station as having no prior
estimate exactly when `lat == 0 ∨ lon == 0` (Python truthiness of
`station.lat and station.lon`); in that case it sets the position to the
batch mean and performs no movement check (for every distance function),
while a station with both coordinates nonzero contributes its `(lat, lon)`
to the extent computation. -/
theorem c4_amended (g : GeoFns) (s : Station) (ms : List (Int × Int)) (cap : ℚ) (bf : Bool) :
    ((s.lat = 0 ∨ s.lon = 0) →
      (calculate_new_position g s ms cap bf).2 = false ∧
      (calculate_new_position g s ms cap bf).1.lat = newLatOf ms ∧
      (calculate_new_position g s ms cap bf).1.lon = newLonOf ms) ∧
    (s.lat ≠ 0 → s.lon ≠ 0 →
      minLatOf s ms ≤ s.lat ∧ s.lat ≤ maxLatOf s ms ∧
      minLonOf s ms ≤ s.lon ∧ s.lon ≤ maxLonOf s ms) := by
  constructor
  · intro h
    have hcond : ¬(s.lat ≠ 0 ∧ s.lon ≠ 0) := by tauto
    simp only [calculate_new_position]
    rw [if_neg hcond]
    cases bf <;> simp [finishStation]
  · intro hlat hlon
    have hex : s.lat ≠ 0 ∧ s.lon ≠ 0 := ⟨hlat, hlon⟩
    have hmemLat : s.lat ∈ extLats s ms := by
      simp [extLats, if_pos hex]
    have hmemLon : s.lon ∈ extLons s ms := by
      simp [extLons, if_pos hex]
    refine ⟨?_, ?_, ?_, ?_⟩
    · exact le_trans (extreme_min_le _ _) (listMin_le_of_mem hmemLat)
    · exact le_trans (le_listMax_of_mem hmemLat) (le_extreme_max _ _)
    · exact le_trans (extreme_min_le _ _) (listMin_le_of_mem hmemLon)
    · exact le_trans (le_listMax_of_mem hmemLon) (le_extreme_max _ _)

/-- Claim C6, counterexample: `update_enclosing_lac` on a database without
the virtual row inserts a LAC row with `new_measures = 1` and
`total_measures = 0`, so the invariant `new_measures ≤ total_measures` does
not survive this task. -/
def c6cell : Station :=
  { radio := 0, mcc := 1, mnc := 2, lac := some 3, cid := 4,
    lat := 5, lon := 6,
    min_lat := none, min_lon := none, max_lat := none, max_lon := none,
    range := 7, new_measures := 0, total_measures := 0 }

/-- Claim C6 is false as stated: after `update_enclosing_lac` the freshly
inserted virtual LAC row violates `new_measures ≤ total_measures`. -/
theorem c6_counterexample :
    ((update_enclosing_lac [] c6cell).all
      (fun r => decide (r.new_measures ≤ r.total_measures))) = false := by
  decide

/-- Claim C6, amended: `calculate_new_position` preserves
`0 ≤ new_measures ≤ total_measures` (given, in incremental mode, a batch
no larger than `new_measures`, which the callers' `LIMIT new_measures`
guarantees); the invariant however fails on virtual LAC rows, which
`update_enclosing_lac` creates with `new_measures = 1 > 0 = total_measures`. -/
theorem c6_amended (g : GeoFns) (s : Station) (ms : List (Int × Int)) (cap : ℚ) (bf : Bool)
    (h0 : 0 ≤ s.new_measures) (h1 : s.new_measures ≤ s.total_measures)
    (h2 : bf = false → (ms.length : Int) ≤ s.new_measures) :
    0 ≤ (calculate_new_position g s ms cap bf).1.new_measures ∧
    (calculate_new_position g s ms cap bf).1.new_measures ≤
      (calculate_new_position g s ms cap bf).1.total_measures := by
  have hlen : (0 : Int) ≤ (ms.length : Int) := Int.ofNat_nonneg _
  cases bf with
  | false =>
    have h2' := h2 rfl
    simp only [calculate_new_position, finishStation]
    split_ifs <;> simp <;> omega
  | true =>
    simp only [calculate_new_position, finishStation]
    split_ifs <;> simp <;> omega

/-- Witness for C3 at the spec's weighted-refinement scenario (in
centimicrodegrees): a station at 50.0 with 100 total and 10 pending
measurements, and 10 incremental measurements at 50.001, moves to 50.0001;
`new_measures` drops to 0 and `total_measures` stays 100. -/
def c3station : Station :=
  { radio := 0, mcc := 262, mnc := 1, lac := some 3, cid := 4,
    lat := 500000000, lon := 100000000,
    min_lat := some 500000000, min_lon := some 100000000,
    max_lat := some 500000000, max_lon := some 100000000,
    range := 0, new_measures := 10, total_measures := 100 }

def c3batch : List (Int × Int) := List.replicate 10 (500010000, 100000000)

theorem c3_witness :
    (calculate_new_position gNear c3station c3batch CELL_MAX_DIST_KM false).1.lat = 500001000 ∧
    (calculate_new_position gNear c3station c3batch CELL_MAX_DIST_KM false).1.new_measures = 0 ∧
    (calculate_new_position gNear c3station c3batch CELL_MAX_DIST_KM false).1.total_measures = 100 := by
  have h := c3_incremental_update gNear c3station c3batch CELL_MAX_DIST_KM
    (by decide) (by decide) (by decide) (by decide) (by decide)
  refine ⟨?_, ?_, ?_⟩
  · rw [h.1]; decide
  · rw [h.2.2.1]; decide
  · exact h.2.2.2.1

def c5station : Station :=
  { radio := 0, mcc := 1, mnc := 2, lac := some 3, cid := 4,
    lat := 10, lon := 20,
    min_lat := none, min_lon := none, max_lat := none, max_lon := none,
    range := 0, new_measures := 5, total_measures := 9 }

theorem c5_witness :
    calculate_new_position gFar c5station [(30, 40)] CELL_MAX_DIST_KM false =
      (c5station, true) :=
  c5_moving_station_unchanged gFar c5station [(30, 40)] CELL_MAX_DIST_KM false
    (by decide) (by decide) (by decide)

theorem c4_witness :
    ((calculate_new_position gFar c4station [(100, 200)] CELL_MAX_DIST_KM true).2 = false ∧
      (calculate_new_position gFar c4station [(100, 200)] CELL_MAX_DIST_KM true).1.lat =
        newLatOf [(100, 200)] ∧
      (calculate_new_position gFar c4station [(100, 200)] CELL_MAX_DIST_KM true).1.lon =
        newLonOf [(100, 200)]) ∧
    (minLatOf c5station [(30, 40)] ≤ c5station.lat ∧
      c5station.lat ≤ maxLatOf c5station [(30, 40)] ∧
      minLonOf c5station [(30, 40)] ≤ c5station.lon ∧
      c5station.lon ≤ maxLonOf c5station [(30, 40)]) :=
  ⟨(c4_amended gFar c4station [(100, 200)] CELL_MAX_DIST_KM true).1 (Or.inl (by decide)),
   (c4_amended gFar c5station [(30, 40)] CELL_MAX_DIST_KM true).2 (by decide) (by decide)⟩

theorem c6_witness :
    0 ≤ (calculate_new_position gNear c3station c3batch CELL_MAX_DIST_KM false).1.new_measures ∧
    (calculate_new_position gNear c3station c3batch CELL_MAX_DIST_KM false).1.new_measures ≤
      (calculate_new_position gNear c3station c3batch CELL_MAX_DIST_KM false).1.total_measures :=
  c6_amended gNear c3station c3batch CELL_MAX_DIST_KM false
    (by decide) (by decide) (fun _ => by decide)

/-- Floor of a rational, computed as `num / den` with Euclidean integer
division (the denominator is positive, so this is the floor). -/
def qfloor (q : ℚ) : Int := q.num / (q.den : Int)

/-- Python's `int(round(x))` for the nonnegative distances appearing here:
round half up. -/
def qround (q : ℚ) : Int := qfloor (q + 1 / 2)

/-- Key test for the sibling query of `update_lac` (tasks.py lines
586-591): same `(radio, mcc, mnc, lac)`. -/
def lacSibKey (radio mcc mnc lacParam : Int) (c : Station) : Bool :=
  decide (c.radio = radio) && decide (c.mcc = mcc) && decide (c.mnc = mnc) &&
    decide (c.lac = some lacParam)

/-- `update_lac` (tasks.py lines 578-641).  The sibling cells (non-virtual
rows of the LAC) determine a centroid and an enclosing range.  The update
branch (virtual row present) stores them and resets `new_measures`.  In the
insert branch the source constructs `Cell(radio=.., lac=lac, ...)` — but at
that point the local name `lac` has been rebound to the query result `None`
(line 624 shadows the task parameter), and the constructed object is never
passed to `session.add`, so the commit persists nothing: the database is
returned unchanged.  Sibling bounding boxes are assumed non-null (the
aggregator always stores them before a LAC recompute is scheduled). -/
def update_lac (g : GeoFns) (radio mcc mnc lacParam : Int) (db : List Station) :
    List Station :=
  let cells := db.filter (fun c => lacSibKey radio mcc mnc lacParam c &&
    !(decide (c.cid = CELLID_LAC)))
  let points := cells.map (fun c => (toDegrees c.lat, toDegrees c.lon))
  let min_lat := toDegrees (listMin (cells.map (fun c => c.min_lat.getD 0)))
  let min_lon := toDegrees (listMin (cells.map (fun c => c.min_lon.getD 0)))
  let max_lat := toDegrees (listMax (cells.map (fun c => c.max_lat.getD 0)))
  let max_lon := toDegrees (listMax (cells.map (fun c => c.max_lon.getD 0)))
  let bbox_points := [(min_lat, min_lon), (min_lat, max_lon),
                      (max_lat, min_lon), (max_lat, max_lon)]
  let ctr := g.centroid points
  let rng := g.rangeToPoints ctr bbox_points
  let ctr_lat := g.fromDegrees ctr.1
  let ctr_lon := g.fromDegrees ctr.2
  let rngMeters : Int := qround (rng * 1000)
  match db.find? (fun c => lacSibKey radio mcc mnc lacParam c &&
      decide (c.cid = CELLID_LAC)) with
  | none => db
  | some _ =>
      db.map (fun c =>
        if lacSibKey radio mcc mnc lacParam c && decide (c.cid = CELLID_LAC) then
          { c with new_measures := 0, lat := ctr_lat, lon := ctr_lon,
                   range := (rngMeters : ℚ) }
        else c)

/-- Two sibling cells of LAC `(radio 0, mcc 1, mnc 2, lac 3)` and no
virtual row: the failing input for claim C7. -/
def c7db : List Station :=
  [{ radio := 0, mcc := 1, mnc := 2, lac := some 3, cid := 10,
     lat := 500000000, lon := 100000000,
     min_lat := some 499000000, min_lon := some 99000000,
     max_lat := some 501000000, max_lon := some 101000000,
     range := 100, new_measures := 0, total_measures := 4 },
   { radio := 0, mcc := 1, mnc := 2, lac := some 3, cid := 11,
     lat := 502000000, lon := 102000000,
     min_lat := some 501500000, min_lon := some 101500000,
     max_lat := some 502500000, max_lon := some 102500000,
     range := 100, new_measures := 0, total_measures := 4 }]

/-- Claim C7 fails on the insert branch: with siblings present but no
existing virtual row, `update_lac` leaves the database unchanged — no
virtual LAC row is created (the source builds the new `Cell` with the
shadowed `lac = None` and never adds it to the session). -/
theorem c7_insert_branch_noop :
    update_lac gNear 0 1 2 3 c7db = c7db ∧
    (update_lac gNear 0 1 2 3 c7db).filter (fun c => decide (c.cid = CELLID_LAC)) = [] := by
  decide

/-- A raw measurement row (`CellMeasure` / `WifiMeasure`): immutable;
`time` and `created` are modelled as integer timestamps.  The station-key
columns are irrelevant to the claims below (joins are applied before the
modelled computations) and omitted. -/
structure Measure where
  id : Int
  lat : Int
  lon : Int
  time : Int
  created : Int
deriving DecidableEq

/-- A `MeasureBlock` row: a contiguous id range of one measure kind
scheduled for archival. -/
structure MeasureBlock where
  measure_type : Int
  start_id : Int
  end_id : Int
  s3_key : Option String
  archive_sha : Option String
  archive_date : Option Int
deriving DecidableEq

/-- The reaper's block query (tasks.py lines 846-849): same kind,
`s3_key IS NOT NULL`, `archive_date IS NULL`. -/
def reaperSelects (measure_type : Int) (b : MeasureBlock) : Bool :=
  decide (b.measure_type = measure_type) && !(decide (b.s3_key = none)) &&
    decide (b.archive_date = none)

/-- `delete_measure_records` (tasks.py lines 844-858).  `checkArchive`
abstracts `S3Backend.check_archive(expected_sha, s3_key)`.  For every
selected and confirmed block the measurement rows with
`start_id ≤ id ≤ end_id` are deleted and the session committed (the
chained `q.filter(...).delete()` deletes exactly that range).  No column of
any block is ever assigned — in particular `archive_date` is never set —
so the block table is returned verbatim. -/
def delete_measure_records (checkArchive : Option String → Option String → Bool)
    (measure_type : Int) (blocks : List MeasureBlock) (measures : List Measure) :
    List MeasureBlock × List Measure :=
  let todo := blocks.filter (reaperSelects measure_type)
  let measures2 := todo.foldl
    (fun ms b =>
      if checkArchive b.archive_sha b.s3_key then
        ms.filter (fun m => !(decide (b.start_id ≤ m.id) && decide (m.id ≤ b.end_id)))
      else ms)
    measures
  (blocks, measures2)

/-- The failing input for claim C1: a confirmed block covering ids 1-10. -/
def c1block : MeasureBlock :=
  { measure_type := 1, start_id := 1, end_id := 10,
    s3_key := some ("201401/CellMeasure_1_10.zip"), archive_sha := some ("abc"),
    archive_date := none }

def c1measure (i : Int) : Measure :=
  { id := i, lat := 0, lon := 0, time := 0, created := 0 }

def c1measures : List Measure := (List.range 12).map (fun i => c1measure ((i : Int) + 1))

/-- Claim C1: on a confirmed block the reaper deletes exactly the rows with
`start_id ≤ id ≤ end_id` — but it never assigns `archive_date`, which stays
`NULL`, so the block remains eligible and is re-reaped on every later run.
Evaluated at the failing input: rows 1-10 are gone, rows 11-12 remain, and
the block row is returned bit-for-bit unchanged with `archive_date = none`. -/
theorem c1_reaper_never_sets_archive_date :
    delete_measure_records (fun _ _ => true) 1 [c1block] c1measures =
      ([c1block], [c1measure 11, c1measure 12]) ∧
    c1block.archive_date = none ∧
    (delete_measure_records (fun _ _ => true) 1 [c1block] c1measures).1.all
      (fun b => decide (b.archive_date = none)) = true := by
  decide

/-- Insertion step for the `ORDER BY end_id` of the writer's block query. -/
def insertByEnd (b : MeasureBlock) : List MeasureBlock → List MeasureBlock
  | [] => [b]
  | c :: cs => if b.end_id ≤ c.end_id then b :: c :: cs else c :: insertByEnd b cs

/-- `ORDER BY MeasureBlock.end_id` (ascending), as an insertion sort. -/
def sortByEnd (l : List MeasureBlock) : List MeasureBlock := l.foldr insertByEnd []

/-- Ascending `end_id` order between block rows. -/
def endLe (a b : MeasureBlock) : Prop := a.end_id ≤ b.end_id

theorem insertByEnd_perm (b : MeasureBlock) (l : List MeasureBlock) :
    (insertByEnd b l).Perm (b :: l) := by
  induction l with
  | nil => exact List.Perm.refl _
  | cons c cs ih =>
    unfold insertByEnd
    split
    · exact List.Perm.refl _
    · exact List.Perm.trans (List.Perm.cons c ih) (List.Perm.swap b c cs)

theorem sortByEnd_perm (l : List MeasureBlock) : (sortByEnd l).Perm l := by
  induction l with
  | nil => exact List.Perm.refl _
  | cons c cs ih =>
    exact List.Perm.trans (insertByEnd_perm c (sortByEnd cs)) (List.Perm.cons c ih)

theorem pairwise_insertByEnd (b : MeasureBlock) (l : List MeasureBlock)
    (h : l.Pairwise endLe) : (insertByEnd b l).Pairwise endLe := by
  induction l with
  | nil => simp [insertByEnd, List.pairwise_cons]
  | cons c cs ih =>
    have hcs := List.pairwise_cons.mp h
    unfold insertByEnd
    split
    · refine List.pairwise_cons.mpr ⟨?_, h⟩
      intro x hx
      rcases List.mem_cons.mp hx with rfl | hx'
      · assumption
      · exact le_trans (by assumption) (hcs.1 x hx')
    · refine List.pairwise_cons.mpr ⟨?_, ih hcs.2⟩
      intro x hx
      have hx2 : x = b ∨ x ∈ cs := by
        have := (insertByEnd_perm b cs).mem_iff.mp hx
        simpa using this
      rcases hx2 with rfl | hx'
      · exact le_of_not_le (by assumption)
      · exact hcs.1 x hx'

theorem sortByEnd_pairwise (l : List MeasureBlock) : (sortByEnd l).Pairwise endLe := by
  induction l with
  | nil => simp [sortByEnd]
  | cons c cs ih => exact pairwise_insertByEnd c (sortByEnd cs) ih

/-- The object-store key assigned by the writer (tasks.py lines 712-715):
`"YYYYMM/<kind>_<start_id>_<end_id>.zip"` from the current UTC year/month
and the kind's zip name. -/
def zipKey (yyyymm zipTag : String) (b : MeasureBlock) : String :=
  yyyymm ++ "/" ++ zipTag ++ "_" ++ toString b.start_id ++ "_" ++ toString b.end_id ++ ".zip"

/-- The measurement rows written into the block's CSV (tasks.py lines
726-730): `start_id ≤ id ≤ end_id`. -/
def blockMeasures (measures : List Measure) (b : MeasureBlock) : List Measure :=
  measures.filter (fun m => decide (b.start_id ≤ m.id) && decide (m.id ≤ b.end_id))

/-- The writer's block query (tasks.py lines 707-709): same kind and
`archive_date IS NULL` — the query does NOT restrict `s3_key`. -/
def writerSelects (measure_type : Int) (b : MeasureBlock) : Bool :=
  decide (b.measure_type = measure_type) && decide (b.archive_date = none)

/-- Field assignment performed on each selected block (tasks.py lines 712
and 743): `s3_key` gets the fresh key and `archive_sha` the content hash of
the zip built from the block's rows.  `sha1` abstracts
`ichnaea.backup.compute_hash` composed with the zip serialization, so its
argument is the CSV row list the zip is built from. -/
def writeBlockAssign (sha1 : List Measure → String) (yyyymm zipTag : String)
    (measures : List Measure) (b : MeasureBlock) : MeasureBlock :=
  { b with s3_key := some (zipKey yyyymm zipTag b),
           archive_sha := some (sha1 (blockMeasures measures b)) }

/-- `write_measure_s3_backups` (tasks.py lines 694-760).  Returns the block
table after the run and the `(start_id, end_id)` pairs of the processed
blocks in processing order (`ORDER BY end_id`).  The upload
(`S3Backend.backup_archive`) does not touch any block column and only
influences the metric and the returned zip-path list, so it is not
modelled; the per-block `session.add`/`commit` is modelled as an immediate
table update. -/
def write_measure_s3_backups (sha1 : List Measure → String) (measure_type : Int)
    (zipTag yyyymm : String) (blocks : List MeasureBlock) (measures : List Measure) :
    List MeasureBlock × List (Int × Int) :=
  let todo := sortByEnd (blocks.filter (writerSelects measure_type))
  (blocks.map (fun b =>
     if writerSelects measure_type b then writeBlockAssign sha1 yyyymm zipTag measures b
     else b),
   todo.map (fun b => (b.start_id, b.end_id)))

/-- A block that has already been uploaded (`s3_key` set) but not yet
reaped (`archive_date` null): the counterexample input for claim C2. -/
def c2blockOld : MeasureBlock :=
  { measure_type := 1, start_id := 1, end_id := 2,
    s3_key := some ("OLD"), archive_sha := none, archive_date := none }

/-- Claim C2 is false as stated: the writer selects on
`archive_date IS NULL`, not on `s3_key IS NULL`, so a block whose `s3_key`
is already set is processed again — it appears in the processing list and
its `s3_key` and `archive_sha` are reassigned. -/
theorem c2_counterexample :
    c2blockOld.s3_key = some ("OLD") ∧
    (write_measure_s3_backups (fun _ => "e") 1 "CellMeasure" "201401"
      [c2blockOld] []).2 = [(1, 2)] ∧
    (write_measure_s3_backups (fun _ => "e") 1 "CellMeasure" "201401"
      [c2blockOld] []).1 =
      [{ c2blockOld with s3_key := some ("201401/CellMeasure_1_2.zip"),
                         archive_sha := some ("e") }] := by
  decide

/-- Claim C2, amended: the archival writer processes exactly the blocks of
its kind whose `archive_date` is null (not: whose `s3_key` is null), in
ascending `end_id` order; each processed block is assigned
`s3_key = "YYYYMM/<kind>_<start_id>_<end_id>.zip"` and an `archive_sha`
equal to the hash of the zip built from the block's measurement rows, and
unselected blocks survive unchanged. -/
theorem c2_amended (sha1 : List Measure → String) (mt : Int) (zipTag yyyymm : String)
    (blocks : List MeasureBlock) (measures : List Measure) :
    ((write_measure_s3_backups sha1 mt zipTag yyyymm blocks measures).2.Perm
      ((blocks.filter (writerSelects mt)).map (fun b => (b.start_id, b.end_id)))) ∧
    ((write_measure_s3_backups sha1 mt zipTag yyyymm blocks measures).2.Pairwise
      (fun p q : Int × Int => p.2 ≤ q.2)) ∧
    (∀ b ∈ blocks, writerSelects mt b = true →
      writeBlockAssign sha1 yyyymm zipTag measures b ∈
        (write_measure_s3_backups sha1 mt zipTag yyyymm blocks measures).1 ∧
      (writeBlockAssign sha1 yyyymm zipTag measures b).s3_key =
        some (zipKey yyyymm zipTag b) ∧
      (writeBlockAssign sha1 yyyymm zipTag measures b).archive_sha =
        some (sha1 (blockMeasures measures b))) ∧
    (∀ b ∈ blocks, writerSelects mt b = false →
      b ∈ (write_measure_s3_backups sha1 mt zipTag yyyymm blocks measures).1) := by
  refine ⟨?_, ?_, ?_, ?_⟩
  · exact List.Perm.map _ (sortByEnd_perm _)
  · exact List.Pairwise.map _ (fun a b h => h) (sortByEnd_pairwise _)
  · intro b hb hsel
    exact ⟨List.mem_map.mpr ⟨b, hb, by simp [hsel]⟩, rfl, rfl⟩
  · intro b hb hsel
    exact List.mem_map.mpr ⟨b, hb, by simp [hsel]⟩

/-- A not-yet-uploaded block, used to evaluate the amended C2 statement. -/
def c2blockNew : MeasureBlock :=
  { measure_type := 1, start_id := 3, end_id := 7,
    s3_key := none, archive_sha := none, archive_date := none }

theorem c2_witness :
    writeBlockAssign (fun _ => "e") "201401" "CellMeasure" [] c2blockNew ∈
      (write_measure_s3_backups (fun _ => "e") 1 "CellMeasure" "201401"
        [c2blockNew] []).1 ∧
    (writeBlockAssign (fun _ => "e") "201401" "CellMeasure" [] c2blockNew).s3_key =
      some (zipKey "201401" "CellMeasure" c2blockNew) ∧
    (writeBlockAssign (fun _ => "e") "201401" "CellMeasure" [] c2blockNew).archive_sha =
      some ((fun _ => "e") (blockMeasures [] c2blockNew)) :=
  (c2_amended (fun _ => "e") 1 "CellMeasure" "201401" [c2blockNew] []).2.2.1
    c2blockNew (by decide) (by decide)

/-- The start of the next carving run (tasks.py lines 785-795): one past
the greatest existing `end_id` when blocks of the kind exist, else the
smallest measurement id. -/
def planStart (lastBlockEnd : Option Int) (minMeasureId : Int) : Int :=
  match lastBlockEnd with
  | some e => e + 1
  | none => minMeasureId

/-- The `while` loop of `schedule_measure_archival` (tasks.py lines
806-819), with explicit fuel: each taken iteration consumes at least
`batch_size ≥ 1` ids, so the fuel chosen by the wrapper suffices (Python's
loop terminates by the same argument).  The body appends the block,
advances `min_id`, clamps the next `this_max_id` to `max_id`, and then runs
the source's (dead) `break` test. -/
def schedule_loop (batch_size max_id : Int) : Nat → Int → Int → List (Int × Int)
  | 0, _, _ => []
  | fuel + 1, min_id, this_max =>
    if batch_size ≤ this_max - min_id + 1 then
      (min_id, this_max) ::
        (let min2 := this_max + 1
         let tm2 := min (batch_size + this_max) max_id
         if max_id < tm2 then [] else schedule_loop batch_size max_id fuel min2 tm2)
    else []

/-- `schedule_measure_archival` (tasks.py lines 777-821), applied to the
results of its three boundary queries: the greatest existing block
`end_id` of the kind (if any) and the least and greatest measurement ids
(the measurement table is assumed non-empty, as the source crashes
otherwise).  Returns the `(start_id, end_id)` pairs of the inserted
blocks. -/
def schedule_measure_archival (batch_size : Int) (lastBlockEnd : Option Int)
    (minMeasureId maxMeasureId : Int) : List (Int × Int) :=
  let min_id := planStart lastBlockEnd minMeasureId
  if maxMeasureId - min_id + 1 < batch_size then []
  else
    schedule_loop batch_size maxMeasureId ((maxMeasureId - min_id + 1).toNat + 1)
      min_id (min_id + batch_size - 1)

/-- Closed form of the carved blocks: `k` consecutive blocks of exactly
`batch_size` ids starting at `min_id`. -/
def blockSeq (min_id batch_size : Int) : Nat → List (Int × Int)
  | 0 => []
  | k + 1 =>
    (min_id, min_id + batch_size - 1) :: blockSeq (min_id + batch_size) batch_size k

/-- Number of blocks carved from ids `min_id .. max_id`. -/
def planCount (batch_size min_id max_id : Int) : Nat :=
  ((max_id - min_id + 1) / batch_size).toNat

theorem blockSeq_eq_range (bs : Int) :
    ∀ (k : Nat) (min_id : Int),
      blockSeq min_id bs k =
        (List.range k).map
          (fun (i : Nat) => (min_id + bs * (i : Int), min_id + bs * (i : Int) + bs - 1)) := by
  intro k
  induction k with
  | zero => intro min_id; rfl
  | succ k ih =>
    intro min_id
    rw [blockSeq, ih (min_id + bs), List.range_succ_eq_map, List.map_cons, List.map_map]
    congr 1
    · simp
    · refine List.map_congr_left ?_
      intro a _
      simp only [Function.comp_apply, Prod.mk.injEq]
      constructor <;> push_cast <;> ring

theorem schedule_loop_spec (bs max_id : Int) (hbs : 1 ≤ bs) :
    ∀ (fuel : Nat) (min_id : Int), (max_id - min_id + 1).toNat < fuel →
      schedule_loop bs max_id fuel min_id (min (min_id + bs - 1) max_id) =
        blockSeq min_id bs ((max_id - min_id + 1) / bs).toNat := by
  intro fuel
  induction fuel with
  | zero => intro min_id h; omega
  | succ f ih =>
    intro min_id hfuel
    by_cases hn : max_id - min_id + 1 < bs
    · have hmin : min (min_id + bs - 1) max_id = max_id := min_eq_right (by omega)
      have hq : (max_id - min_id + 1) / bs < 1 :=
        (Int.ediv_lt_iff_lt_mul (by omega)).mpr (by omega)
      have hq0 : ((max_id - min_id + 1) / bs).toNat = 0 := by omega
      rw [hmin, hq0, schedule_loop, if_neg (by omega)]
      rfl
    · have hbig : bs ≤ max_id - min_id + 1 := by omega
      have hmin : min (min_id + bs - 1) max_id = min_id + bs - 1 := min_eq_left (by omega)
      have hq1 : 1 ≤ (max_id - min_id + 1) / bs :=
        (Int.le_ediv_iff_mul_le (by omega)).mpr (by omega)
      have hq2 : (max_id - min_id + 1 + (-1) * bs) / bs = (max_id - min_id + 1) / bs + (-1) :=
        Int.add_mul_ediv_right (max_id - min_id + 1) (-1) (by omega)
      have harg : max_id - (min_id + bs) + 1 = max_id - min_id + 1 + (-1) * bs := by ring
      have hrec := ih (min_id + bs) (by omega)
      have htm2 : min (bs + (min_id + bs - 1)) max_id = min ((min_id + bs) + bs - 1) max_id := by
        congr 1
        ring
      have hknat : ((max_id - min_id + 1) / bs).toNat =
          ((max_id - (min_id + bs) + 1) / bs).toNat + 1 := by
        rw [harg, hq2]
        omega
      have hm2 : min_id + bs - 1 + 1 = min_id + bs := by ring
      rw [hmin, schedule_loop, if_pos (by omega), hknat, blockSeq]
      simp only []
      rw [if_neg (not_lt.mpr (min_le_right _ _)), hm2, htm2, hrec]

/-- Claim C8: the archival planner starts carving at the last block's
`end_id + 1` (or the smallest measurement id when no block of the kind
exists — this is `planStart`), emits nothing when fewer than `batch_size`
ids are available, and otherwise emits exactly
`planCount = ⌊available / batch_size⌋ ≥ 1` consecutive non-overlapping
blocks of exactly `batch_size` ids each, whose last `end_id` stays within
`max_id` while leaving a tail strictly shorter than `batch_size`
unassigned. -/
theorem c8_planner_blocks (batch_size : Int) (lastBlockEnd : Option Int)
    (minMeasureId maxMeasureId : Int) (hbs : 1 ≤ batch_size) :
    (maxMeasureId - planStart lastBlockEnd minMeasureId + 1 < batch_size →
      schedule_measure_archival batch_size lastBlockEnd minMeasureId maxMeasureId = []) ∧
    (batch_size ≤ maxMeasureId - planStart lastBlockEnd minMeasureId + 1 →
      schedule_measure_archival batch_size lastBlockEnd minMeasureId maxMeasureId =
        blockSeq (planStart lastBlockEnd minMeasureId) batch_size
          (planCount batch_size (planStart lastBlockEnd minMeasureId) maxMeasureId) ∧
      1 ≤ planCount batch_size (planStart lastBlockEnd minMeasureId) maxMeasureId ∧
      planStart lastBlockEnd minMeasureId + batch_size *
        ((planCount batch_size (planStart lastBlockEnd minMeasureId) maxMeasureId : Int)) - 1 ≤
        maxMeasureId ∧
      maxMeasureId - (planStart lastBlockEnd minMeasureId + batch_size *
        ((planCount batch_size (planStart lastBlockEnd minMeasureId) maxMeasureId : Int)) - 1) <
        batch_size) := by
  set m := planStart lastBlockEnd minMeasureId with hm
  constructor
  · intro hsmall
    simp only [schedule_measure_archival, ← hm]
    rw [if_pos hsmall]
  · intro hbig
    have hq1 : 1 ≤ (maxMeasureId - m + 1) / batch_size :=
      (Int.le_ediv_iff_mul_le (by omega)).mpr (by omega)
    have hdm := Int.ediv_add_emod (maxMeasureId - m + 1) batch_size
    have hr0 := Int.emod_nonneg (maxMeasureId - m + 1) (by omega : batch_size ≠ 0)
    have hrlt := Int.emod_lt_of_pos (maxMeasureId - m + 1) (by omega : (0 : Int) < batch_size)
    have hc : ((planCount batch_size m maxMeasureId : Int)) =
        (maxMeasureId - m + 1) / batch_size := by
      simp only [planCount]
      omega
    refine ⟨?_, ?_, ?_, ?_⟩
    · have hle : m + batch_size - 1 ≤ maxMeasureId := by omega
      have hspec := schedule_loop_spec batch_size maxMeasureId hbs
        ((maxMeasureId - m + 1).toNat + 1) m (by omega)
      rw [min_eq_left hle] at hspec
      simp only [schedule_measure_archival, ← hm]
      rw [if_neg (not_lt.mpr hbig)]
      exact hspec
    · simp only [planCount]
      omega
    · rw [hc]
      omega
    · rw [hc]
      omega

theorem c8_witness :
    schedule_measure_archival 1000 none 1 2500 = [(1, 1000), (1001, 2000)] := by
  have h := (c8_planner_blocks 1000 none 1 2500 (by decide)).2 (by decide)
  rw [h.1]
  decide

/-- Ascending `(time, id)` order between measurement rows, for the
trimmer's `ORDER BY time, id`. -/
def tiLe (a b : Measure) : Bool :=
  decide (a.time < b.time) || (decide (a.time = b.time) && decide (a.id ≤ b.id))

/-- Insertion step of the `(time, id)` sort. -/
def insertTI (m : Measure) : List Measure → List Measure
  | [] => [m]
  | c :: cs => if tiLe m c then m :: c :: cs else c :: insertTI m cs

/-- `ORDER BY time, id` (ascending), as an insertion sort. -/
def sortByTimeId (l : List Measure) : List Measure := l.foldr insertTI []

/-- The trimmer's old-window filter (tasks.py lines 456-458):
`created < now - min_age_days` with the threshold precomputed by the
caller. -/
def oldWindow (threshold : Int) (ms : List Measure) : List Measure :=
  ms.filter (fun m => decide (m.created < threshold))

/-- The trimmer's delete predicate under the kept cutoff row `keep`
(tasks.py lines 501-506): still inside the old window and with
`time ≤ keep.time ∧ id < keep.id`. -/
def delPred (threshold : Int) (keep : Measure) (m : Measure) : Bool :=
  decide (m.created < threshold) && decide (m.time ≤ keep.time) &&
    decide (m.id < keep.id)

/-- The per-station body of `trim_excessive_data` (tasks.py lines 488-515)
for one kept station `u` and its measurement rows `ms` (the station's join
predicate is already applied): pick the cutoff row at offset
`count - max_measures` of the old-window rows ordered by `(time, id)`,
delete the rows below it, decrement `total_measures` by the number of rows
deleted, and clamp `new_measures` down to `total_measures` when it exceeds
it.  Returns the updated station, the surviving rows, and the deleted
count.  The `none` branch (no cutoff row) cannot occur on the paths the
task takes: a station is only processed when its old-window count exceeds
`max_measures ≥ 1` (Python would raise there). -/
def trim_station (threshold max_measures : Int) (u : Station) (ms : List Measure) :
    Station × List Measure × Int :=
  let old := oldWindow threshold ms
  let count : Int := old.length
  match (sortByTimeId old).get? (count - max_measures).toNat with
  | none => (u, ms, 0)
  | some keep =>
      let n : Int := (ms.filter (delPred threshold keep)).length
      let remaining := ms.filter (fun m => !(delPred threshold keep m))
      let u1 := { u with total_measures := u.total_measures - n }
      let u2 := if u1.total_measures < u1.new_measures then
                  { u1 with new_measures := u1.total_measures }
                else u1
      (u2, remaining, n)

/-- Reduction of `trim_station` when the cutoff row exists. -/
theorem trim_station_some (threshold max_measures : Int) (u : Station) (ms : List Measure)
    (keep : Measure)
    (hkeep : (sortByTimeId (oldWindow threshold ms)).get?
        ((((oldWindow threshold ms).length : Int) - max_measures).toNat) = some keep) :
    trim_station threshold max_measures u ms =
      ((if u.total_measures - ((ms.filter (delPred threshold keep)).length : Int) <
           u.new_measures then
          { u with
            total_measures :=
                u.total_measures - ((ms.filter (delPred threshold keep)).length : Int),
            new_measures :=
                u.total_measures - ((ms.filter (delPred threshold keep)).length : Int) }
        else
          { u with
            total_measures :=
                u.total_measures - ((ms.filter (delPred threshold keep)).length : Int) }),
       ms.filter (fun m => !(delPred threshold keep m)),
       ((ms.filter (delPred threshold keep)).length : Int)) := by
  simp only [trim_station]
  rw [hkeep]

/-- Claim C9: given the cutoff row `keep` (the row at offset
`count - max_measures` of the age-filtered window ordered by `(time, id)`
ascending), the trimmer deletes exactly the rows that are older than the
age threshold and satisfy `time ≤ keep.time ∧ id < keep.id`; it decrements
`total_measures` by exactly the number of deleted rows and clamps
`new_measures` to `total_measures` whenever it would exceed it. -/
theorem c9_trim_station (threshold max_measures : Int) (u : Station) (ms : List Measure)
    (keep : Measure)
    (hkeep : (sortByTimeId (oldWindow threshold ms)).get?
        ((((oldWindow threshold ms).length : Int) - max_measures).toNat) = some keep) :
    (∀ m ∈ ms, (m ∉ (trim_station threshold max_measures u ms).2.1 ↔
      (m.created < threshold ∧ m.time ≤ keep.time ∧ m.id < keep.id))) ∧
    (trim_station threshold max_measures u ms).1.total_measures =
      u.total_measures - ((ms.filter (delPred threshold keep)).length : Int) ∧
    (trim_station threshold max_measures u ms).2.2 =
      ((ms.filter (delPred threshold keep)).length : Int) ∧
    (trim_station threshold max_measures u ms).1.new_measures =
      (if u.total_measures - ((ms.filter (delPred threshold keep)).length : Int) <
          u.new_measures
       then u.total_measures - ((ms.filter (delPred threshold keep)).length : Int)
       else u.new_measures) := by
  rw [trim_station_some threshold max_measures u ms keep hkeep]
  refine ⟨?_, ?_, rfl, ?_⟩
  · intro m hm
    simp [List.mem_filter, hm, delPred]
    tauto
  · split_ifs <;> rfl
  · split_ifs <;> rfl

def c9station : Station :=
  { radio := 0, mcc := 1, mnc := 2, lac := some 3, cid := 4,
    lat := 1, lon := 1,
    min_lat := none, min_lon := none, max_lat := none, max_lon := none,
    range := 0, new_measures := 5, total_measures := 4 }

def c9m1 : Measure := { id := 1, lat := 0, lon := 0, time := 10, created := 0 }

def c9m2 : Measure := { id := 2, lat := 0, lon := 0, time := 20, created := 0 }

def c9m3 : Measure := { id := 3, lat := 0, lon := 0, time := 30, created := 0 }

def c9m4 : Measure := { id := 4, lat := 0, lon := 0, time := 40, created := 200 }

def c9ms : List Measure := [c9m1, c9m2, c9m3, c9m4]

theorem c9_witness :
    (c9m1 ∉ (trim_station 100 1 c9station c9ms).2.1 ↔
      (c9m1.created < 100 ∧ c9m1.time ≤ c9m3.time ∧ c9m1.id < c9m3.id)) ∧
    (trim_station 100 1 c9station c9ms).1.total_measures =
      c9station.total_measures - ((c9ms.filter (delPred 100 c9m3)).length : Int) ∧
    (trim_station 100 1 c9station c9ms).2.2 =
      ((c9ms.filter (delPred 100 c9m3)).length : Int) ∧
    (trim_station 100 1 c9station c9ms).1.new_measures =
      (if c9station.total_measures - ((c9ms.filter (delPred 100 c9m3)).length : Int) <
          c9station.new_measures
       then c9station.total_measures - ((c9ms.filter (delPred 100 c9m3)).length : Int)
       else c9station.new_measures) := by
  have h := c9_trim_station 100 1 c9station c9ms c9m3 (by decide)
  exact ⟨h.1 c9m1 (by decide), h.2.1, h.2.2.1, h.2.2.2⟩

/-- A cell tower key `(radio, mcc, mnc, lac, cid)` as carried by the
backfill task's input map. -/
structure CellKeyT where
  radio : Int
  mcc : Int
  mnc : Int
  lac : Option Int
  cid : Int
deriving DecidableEq

/-- `join_cellkey(Cell, CellKey(*tower_tuple))`: all five key columns
match. -/
def cellKeyMatches (k : CellKeyT) (c : Station) : Bool :=
  decide (c.radio = k.radio) && decide (c.mcc = k.mcc) && decide (c.mnc = k.mnc) &&
    decide (c.lac = k.lac) && decide (c.cid = k.cid)

/-- The tower's backfill measurements (tasks.py lines 288-290): the rows
whose ids are in the provided id list, projected to `(lat, lon)`.  The
query is issued once per cell but its result depends only on the id
list. -/
def towerMeasures (measTable : List Measure) (ids : List Int) : List (Int × Int) :=
  (measTable.filter (fun m => ids.contains m.id)).map (fun m => (m.lat, m.lon))

/-- One cell of one tower in `backfill_cell_location_update` (tasks.py
lines 287-296): the fold state is the station table and this tower's
`moving_cells` list.  With a non-empty measurement list the aggregator runs
in backfill mode, the mutated ORM row is written back, and the enclosing
LAC is touched; a cell flagged as moving joins `moving_cells` (the early
return leaves the cell row itself unchanged). -/
def bcluCellStep (g : GeoFns) (lat_lons : List (Int × Int))
    (st : List Station × List Station) (cell : Station) :
    List Station × List Station :=
  if lat_lons.isEmpty then st
  else
    let r := calculate_new_position g cell lat_lons CELL_MAX_DIST_KM true
    let db1 := st.1.map (fun c => if c = cell then r.1 else c)
    let db2 := update_enclosing_lac db1 r.1
    (db2, if r.2 then st.2 ++ [cell] else st.2)

/-- One tower of `backfill_cell_location_update` (tasks.py lines 274-300).
The accumulator carries the station table, the last value of the loop
variable `cells` (reassigned on every tower — also on towers matching no
cell, just before the `continue`), and the last value of `moving_cells`
(`none` while still unassigned; reset to empty only on towers that match at
least one cell).  The blacklist bookkeeping of `mark_moving_cells` and the
asynchronous `remove_cell` do not affect the returned counts and are not
modelled. -/
def bcluStep (g : GeoFns) (measTable : List Measure)
    (acc : List Station × List Station × Option (List Station))
    (item : CellKeyT × List Int) :
    List Station × List Station × Option (List Station) :=
  let cells := acc.1.filter (cellKeyMatches item.1)
  if cells.isEmpty then (acc.1, cells, acc.2.2)
  else
    let r := cells.foldl (bcluCellStep g (towerMeasures measTable item.2)) (acc.1, [])
    (r.1, cells, some r.2)

/-- `backfill_cell_location_update` (tasks.py lines 268-308): fold over the
tower map and return `(len(cells), len(moving_cells))` from the final
values of the two loop variables.  `none` models the `NameError` raised
when no tower matched any cell (`moving_cells` is then unbound; the task
errors and is retried). -/
def backfill_cell_location_update (g : GeoFns) (measTable : List Measure)
    (db : List Station) (new_cell_measures : List (CellKeyT × List Int)) :
    Option (Int × Int) :=
  let fin := new_cell_measures.foldl (bcluStep g measTable) (db, [], none)
  fin.2.2.map (fun mv => ((fin.2.1.length : Int), (mv.length : Int)))

def c10cellA : Station :=
  { radio := 0, mcc := 1, mnc := 2, lac := some 3, cid := 4,
    lat := 1, lon := 1,
    min_lat := none, min_lon := none, max_lat := none, max_lon := none,
    range := 0, new_measures := 5, total_measures := 5 }

def c10keyA : CellKeyT := { radio := 0, mcc := 1, mnc := 2, lac := some 3, cid := 4 }

def c10keyB : CellKeyT := { radio := 9, mcc := 9, mnc := 9, lac := some 9, cid := 9 }

def c10meas : List Measure := [{ id := 1, lat := 7, lon := 8, time := 0, created := 0 }]

/-- Claim C10 is false as stated: with the map `[A, B]` where tower `A`
matches the (moving) cell and tower `B` matches nothing, the task returns
`(0, 1)`.  The first component is indeed the cell count of the last tower
`B`, but the moving count `1` is carried over from tower `A`, because
`moving_cells` is only reset on towers that match at least one cell —
processing the last tower alone does not even produce a pair (the
`moving_cells` name is never bound). -/
theorem c10_counterexample :
    backfill_cell_location_update gFar c10meas [c10cellA]
      [(c10keyA, [1]), (c10keyB, [1])] = some (0, 1) ∧
    [c10cellA].filter (cellKeyMatches c10keyB) = [] ∧
    backfill_cell_location_update gFar c10meas [c10cellA] [(c10keyB, [1])] = none := by
  decide

/-- Claim C10, amended: the returned pair is computed solely from the last
tower item — the cell count of the last tower iterated, and the moving
cells of processing that tower when it matches cells; when the last tower
matches no cell, the cell count is 0 and the moving count is carried over
unchanged from the foregoing towers.  In particular the totals are never
sums over the whole input map. -/
theorem c10_amended (g : GeoFns) (measTable : List Measure) (db : List Station)
    (ns : List (CellKeyT × List Int)) (k : CellKeyT) (ids : List Int) :
    backfill_cell_location_update g measTable db (ns ++ [(k, ids)]) =
      (let acc := ns.foldl (bcluStep g measTable) (db, [], none)
       let cells := acc.1.filter (cellKeyMatches k)
       if cells.isEmpty then
         acc.2.2.map (fun mv => ((0 : Int), (mv.length : Int)))
       else
         some ((cells.length : Int),
           (((cells.foldl (bcluCellStep g (towerMeasures measTable ids))
              (acc.1, [])).2).length : Int))) := by
  simp only [backfill_cell_location_update, List.foldl_append, List.foldl_cons,
    List.foldl_nil]
  set acc := ns.foldl (bcluStep g measTable) (db, [], none) with hacc
  simp only [bcluStep]
  by_cases h : (acc.1.filter (cellKeyMatches k)).isEmpty
  · have h0 : acc.1.filter (cellKeyMatches k) = [] := List.isEmpty_iff.mp h
    simp [h, h0]
  · simp [h]

end Ichnaea
